import Mathlib

/-!
Verification of the enzyme-module text-to-model builder
(`Module4_Kinetics/Part2_Exercise/enzyme_construction.py`).

Strings from the Python source are modelled as `List Char`.  Python regular
expressions in this file are only ever used on literal patterns (identifiers
with brackets escaped, single-letter alternations, or the fixed
`\s*\[([A-Za-z])\]` compartment finder), so they are embedded as plain
substring scanning functions with Python's leftmost non-overlapping
semantics.  Floating-point values flowing through `float(...)` are modelled
as exact rationals.  Fallible Python code (raised exceptions) is modelled
with `Except`/`Option`.
-/

set_option autoImplicit false

namespace EnzymeConstruction

/-- Characters of a Lean string literal, used to write concrete inputs. -/
def strL (s : String) : List Char := s.data

/-- Python `\d` test restricted to ASCII digits, as used by
the regex `r"^\d"` in `prefix_number_id`. -/
def isPyDigit (c : Char) : Bool := '0' ≤ c && c ≤ '9'

/-- The character class `[A-Za-z]` of the compartment finder regex. -/
def isPyAlpha (c : Char) : Bool := ('A' ≤ c && c ≤ 'Z') || ('a' ≤ c && c ≤ 'z')

/-- Python `\s` (ASCII whitespace) as it appears in the compartment finder. -/
def isPySpace (c : Char) : Bool :=
  c = ' ' || c = '\t' || c = '\n' || c = '\x0b' || c = '\x0c' || c = '\r'

/-- Python `sub in s` membership test on strings. -/
def containsSub (s pat : List Char) : Bool :=
  match s with
  | [] => pat.isEmpty
  | _ :: rest => pat.isPrefixOf s || containsSub rest pat

/-- Recursion core of `replaceSub`; the fuel argument only bounds the
recursion depth (every call strictly shortens the string, so a fuel equal
to the string length never runs out). -/
def replaceSubAux (pat rep : List Char) : Nat → List Char → List Char
  | _, [] => []
  | 0, s => s
  | fuel + 1, c :: rest =>
    if !pat.isEmpty && pat.isPrefixOf (c :: rest) then
      rep ++ replaceSubAux pat rep fuel ((c :: rest).drop pat.length)
    else
      c :: replaceSubAux pat rep fuel rest

/-- Replace every non-overlapping occurrence of a (non-empty) literal
pattern, scanning left to right: the semantics of Python `str.replace`
and of `re.sub` on a regex-escaped literal pattern. -/
def replaceSub (s pat rep : List Char) : List Char :=
  replaceSubAux pat rep s.length s

/-- Replace only the first occurrence of a literal pattern: the semantics
of `re.sub(escaped_pattern, repl, s, 1)`. -/
def replaceFirst (s pat rep : List Char) : List Char :=
  match s with
  | [] => []
  | c :: rest =>
    if !pat.isEmpty && pat.isPrefixOf (c :: rest) then
      rep ++ (c :: rest).drop pat.length
    else
      c :: replaceFirst rest pat rep

/-- Recursion core of `splitOnSub`, fuelled like `replaceSubAux`. -/
def splitOnSubAux (sep : List Char) : Nat → List Char → List (List Char)
  | _, [] => [[]]
  | 0, s => [s]
  | fuel + 1, c :: rest =>
    if !sep.isEmpty && sep.isPrefixOf (c :: rest) then
      [] :: splitOnSubAux sep fuel ((c :: rest).drop sep.length)
    else
      match splitOnSubAux sep fuel rest with
      | g :: gs => (c :: g) :: gs
      | [] => [[c]]

/-- Python `str.split(sep)` for a non-empty literal separator. -/
def splitOnSub (s sep : List Char) : List (List Char) :=
  splitOnSubAux sep s.length s

/-- All letters captured by `compartment_finder_re.findall`, i.e. by scanning
for non-overlapping occurrences of the pattern `\s*\[([A-Za-z])\]` left to
right (the optional leading whitespace never changes which letters are
captured). -/
def findBracketsAux : Nat → List Char → List Char
  | _, [] => []
  | 0, _ => []
  | fuel + 1, s =>
    match s with
    | '[' :: c :: ']' :: rest =>
      if isPyAlpha c then c :: findBracketsAux fuel rest
      else findBracketsAux fuel (c :: ']' :: rest)
    | _ :: rest => findBracketsAux fuel rest
    | [] => []

/-- All captured letters of `compartment_finder_re.findall`, via the
fuelled scanner above. -/
def findBrackets (s : List Char) : List Char :=
  findBracketsAux s.length s

/-- Length of the match of `\s*\[([A-Za-z])\]` anchored at the head of the
string, if any. -/
def wsBracketLen (s : List Char) : Option Nat :=
  let n := (s.takeWhile isPySpace).length
  match s.drop n with
  | '[' :: c :: ']' :: _ => if isPyAlpha c then some (n + 3) else none
  | _ => none

/-- Recursion core of `compartmentSub`, fuelled like `replaceSubAux`
(`wsBracketLen` only returns positive match lengths). -/
def compartmentSubAux (rep : List Char) : Nat → List Char → List Char
  | _, [] => []
  | 0, s => s
  | fuel + 1, c :: rest =>
    match wsBracketLen (c :: rest) with
    | some n => rep ++ compartmentSubAux rep fuel ((c :: rest).drop n)
    | none => c :: compartmentSubAux rep fuel rest

/-- `compartment_finder_re.sub(rep, s)`: replace every non-overlapping
occurrence of `\s*\[([A-Za-z])\]` with the literal replacement string. -/
def compartmentSub (s rep : List Char) : List Char :=
  compartmentSubAux rep s.length s

/-- `prefix_number_id` (lines 26-30): put an underscore in front of an
identifier that starts with a digit. -/
def prefix_number_id (id_str : List Char) : List Char :=
  match id_str with
  | [] => id_str
  | c :: _ => if isPyDigit c then '_' :: id_str else id_str

/-- The stereo-isomer letter popped by `metabolites_from_txt` when the
bracket letters contain D or L: D is preferred over L. -/
def isomerLetter (compartment : List Char) : Char :=
  if compartment.contains 'D' then 'D' else 'L'

/-- The compartment phase of the normalization (lines 158-162): when
exactly one bracket letter is left, pop it (`Sum.inr`) and substitute
`_<compartment>` for the remaining bracketed tags; otherwise the Python
`compartment` variable remains the list of letters (`Sum.inl`). -/
def normalize_step2 (new_id compartment : List Char) :
    List Char × (List Char ⊕ Char) :=
  if compartment.length = 1 then
    (compartmentSub new_id ['_', compartment.headI], Sum.inr compartment.headI)
  else (new_id, Sum.inl compartment)

/-- The identifier-normalization part of `metabolites_from_txt`
(lines 148-162): find the bracketed letters; if D or L is among them, pop
that letter and splice it into the name with an underscore (replacing every
`[D]`/`[L]`); then run the compartment phase on the remaining letters.
Returns the rewritten identifier (before the digit-prefix fix) and the
final value of the Python `compartment` variable. -/
def normalize_species_id (orig : List Char) : List Char × (List Char ⊕ Char) :=
  if (findBrackets orig).contains 'D' || (findBrackets orig).contains 'L' then
    normalize_step2
      (replaceSub orig ['[', isomerLetter (findBrackets orig), ']']
        ['_', isomerLetter (findBrackets orig)])
      ((findBrackets orig).erase (isomerLetter (findBrackets orig)))
  else normalize_step2 orig (findBrackets orig)

/-- The list of bracket letters still present after the stereo-isomer pop:
the value of the Python `compartment` list just before the
`len(compartment) == 1` test. -/
def remainingBrackets (orig : List Char) : List Char :=
  let compartment := findBrackets orig
  if compartment.contains 'D' || compartment.contains 'L' then
    compartment.erase (isomerLetter compartment)
  else compartment

theorem normalize_species_id_snd (orig : List Char) :
    (normalize_species_id orig).2 =
      if (remainingBrackets orig).length = 1 then Sum.inr (remainingBrackets orig).headI
      else Sum.inl (remainingBrackets orig) := by
  simp only [normalize_species_id, normalize_step2, remainingBrackets]
  split_ifs <;> simp_all

/-- A bound-ligand delimiter, as matched by `bound_metabolites_re`. -/
def isBoundDelim (c : Char) : Bool := c = '&' || c = '@' || c = '#'

/-- `re.split(r"&|@|#", s)`: split at every delimiter character. -/
def splitDelims (s : List Char) : List (List Char) :=
  match s with
  | [] => [[]]
  | c :: rest =>
    if isBoundDelim c then [] :: splitDelims rest
    else
      match splitDelims rest with
      | g :: gs => (c :: g) :: gs
      | [] => [[c]]

/-- One step of the bound-metabolite counting loop: insert the key with
count 0 if absent, then increment (Python dicts keep insertion order). -/
def addBound (m : List (List Char × Nat)) (k : List Char) : List (List Char × Nat) :=
  match m with
  | [] => [(k, 1)]
  | (k', n) :: rest => if k' = k then (k', n + 1) :: rest else (k', n) :: addBound rest k

/-- The data recorded for one species line: the corrected identifier,
whether an `EnzymeModuleForm` (rather than a `MassMetabolite`) was built,
and the `_bound_metabolites` occurrence mapping. -/
structure Specie where
  new_id : List Char
  is_enzyme_form : Bool
  bound_metabolites : List (List Char × Nat)
deriving DecidableEq

/-- Processing of a single (stripped) species line by `metabolites_from_txt`
(lines 146-192): normalize the identifier, apply the digit-prefix fix, then
classify.  For an enzyme-bound form containing a bound-ligand delimiter, the
loop over the split fragments executes `bound_specie_id += "_" + compartment`;
when the Python `compartment` variable is still a list (no single bracket
letter was popped), this string-plus-list concatenation raises a `TypeError`,
modelled as `Except.error`. -/
def process_species_line (enzyme_id orig : List Char) : Except (List Char) Specie :=
  let nid := (normalize_species_id orig).1
  let comp := (normalize_species_id orig).2
  let new_id := prefix_number_id nid
  if (strL "E_" ++ enzyme_id).isPrefixOf new_id then
    if new_id.any isBoundDelim then
      match comp with
      | Sum.inl _ =>
        Except.error (strL "TypeError: can only concatenate str (not list) to str")
      | Sum.inr cc =>
        let bound_ids :=
          ((splitDelims new_id).tail).map (fun b => prefix_number_id (b ++ ['_', cc]))
        Except.ok
          { new_id := new_id.map (fun c => if isBoundDelim c then '_' else c)
            is_enzyme_form := true
            bound_metabolites := bound_ids.foldl addBound [] }
    else
      Except.ok { new_id := new_id, is_enzyme_form := true, bound_metabolites := [] }
  else
    Except.ok { new_id := new_id, is_enzyme_form := false, bound_metabolites := [] }

/-- `metabolites_from_txt` over the stripped lines of the species file:
build the species in order and record the raw-to-normalized Identifier Map
entries; the first raised exception aborts the loader. -/
def metabolites_from_txt (enzyme_id : List Char) (lines : List (List Char)) :
    Except (List Char) (List Specie × List (List Char × List Char)) :=
  lines.foldlM
    (fun (acc : List Specie × List (List Char × List Char)) orig => do
      let sp ← process_species_line enzyme_id orig
      pure (acc.1 ++ [sp], acc.2 ++ [(orig, sp.new_id)]))
    ([], [])

/-- Python dict lookup on the Identifier Map, represented as an association
list in insertion order (`none` models a raised `KeyError`). -/
def lookupAssoc (m : List (List Char × List Char)) (k : List Char) : Option (List Char) :=
  match m with
  | [] => none
  | (k', v) :: rest => if k' = k then some v else lookupAssoc rest k

/-- The species tokens of a reaction formula, as computed on lines 219-220:
`iconcat(*[s.split(" + ") for s in formula.split(" <=> ")])`.
`operator.iconcat` takes exactly two arguments, so the splice succeeds only
when the formula has exactly one " <=> " separator; otherwise the call
raises a `TypeError`, modelled by `none`. -/
def speciesTokens (reaction_str : List Char) : Option (List (List Char)) :=
  match splitOnSub reaction_str (strL " <=> ") with
  | [lhs, rhs] => some (splitOnSub lhs (strL " + ") ++ splitOnSub rhs (strL " + "))
  | _ => none

/-- The per-token rewriting loop of `reactions_from_txt` (lines 221-225):
look each species token up in the Identifier Map (a missing key raises
`KeyError`, modelled as `Except.error` carrying the token) and substitute
the normalized identifier for the first occurrence of the raw token. -/
def subst_tokens (species_map : List (List Char × List Char)) (eq : List Char) :
    List (List Char) → Except (List Char) (List Char)
  | [] => Except.ok eq
  | t :: rest =>
    match lookupAssoc species_map t with
    | none => Except.error t
    | some new_id => subst_tokens species_map (replaceFirst eq t new_id) rest

/-- Python `str.strip()`. -/
def stripL (s : List Char) : List Char :=
  ((s.dropWhile isPySpace).reverse.dropWhile isPySpace).reverse

/-- The formula-rewriting part of `reactions_from_txt`: compute the species
tokens of the stripped formula and rewrite each one via the Identifier Map,
returning the rewritten formula string. -/
def rewrite_reaction_species (species_map : List (List Char × List Char))
    (reaction_str : List Char) : Except (List Char) (List Char) :=
  match speciesTokens (stripL reaction_str) with
  | none => Except.error (strL "TypeError: iconcat expected 2 arguments")
  | some toks => subst_tokens species_map reaction_str toks

/-- Processing of one (stripped) reaction line by `reactions_from_txt`
(lines 208-229): split `<raw-id>: <formula>` (a `ValueError` unless the
separator occurs exactly once), normalize the reaction identifier by
collapsing `$` to `_` and applying the digit-prefix fix, and rewrite the
formula species.  Returns the new reaction id and the rewritten formula
handed to `build_reaction_from_string`. -/
def reaction_from_line (species_map : List (List Char × List Char))
    (line : List Char) : Except (List Char) (List Char × List Char) :=
  match splitOnSub line (strL ": ") with
  | [orig_id, reaction_str] =>
    let new_id := prefix_number_id (replaceSub orig_id ['$'] ['_'])
    match rewrite_reaction_species species_map reaction_str with
    | Except.error e => Except.error e
    | Except.ok fixed => Except.ok (new_id, fixed)
  | _ => Except.error (strL "ValueError: unpacking id and formula failed")

/-- The species-file/reaction-file round trip: run the Species Loader on
the species lines to build the Identifier Map, then the Reaction Loader on
one reaction line. -/
def load_species_and_reaction (enzyme_id : List Char)
    (species_lines : List (List Char)) (reaction_line : List Char) :
    Except (List Char) (List Char × List Char) :=
  match metabolites_from_txt enzyme_id species_lines with
  | Except.error e => Except.error e
  | Except.ok (_, id_map) => reaction_from_line id_map reaction_line

/-- The total-enzyme postprocessing of `calculate_enzyme_total`
(lines 67-70): the real solutions produced by the symbolic
`sympy.solveset` call are materialized into a list; `.pop()` raises an
`IndexError` on an empty list and otherwise returns the last element,
which `float` converts and the function returns. -/
def calculate_enzyme_total (solutions : List ℚ) : Except (List Char) ℚ :=
  match solutions.getLast? with
  | none => Except.error (strL "IndexError: pop from empty list")
  | some v => Except.ok v

/-- Decimal digits to a natural number. -/
def digitsToNat (ds : List Char) : Nat :=
  ds.foldl (fun a c => a * 10 + (c.toNat - 48)) 0

/-- Python `float(...)` on a finite decimal literal, with the value kept as
an exact rational: optional sign, integer digits, optional fraction,
optional `e`/`E` exponent with optional sign; anything else (in particular
a `*^` exponent marker) raises `ValueError`, modelled as `none`.  The
digits are assembled into the single fraction
`sign * (intpart.fracpart) * 10 ^ exponent` via `mkRat`.
Infinities, NaN payloads, digit underscores and surrounding whitespace do
not occur in the rate-constant value files and are not modelled. -/
def parsePyFloat (s : List Char) : Option ℚ :=
  let sp : Bool × List Char :=
    match s with
    | '+' :: r => (false, r)
    | '-' :: r => (true, r)
    | _ => (false, s)
  let s1 := sp.2
  let ip := s1.takeWhile isPyDigit
  let s2 := s1.dropWhile isPyDigit
  let fp2 : List Char × List Char :=
    match s2 with
    | '.' :: r => (r.takeWhile isPyDigit, r.dropWhile isPyDigit)
    | _ => ([], s2)
  let fp := fp2.1
  let s3 := fp2.2
  if ip.isEmpty && fp.isEmpty then none
  else
    let m : Nat := digitsToNat ip * 10 ^ fp.length + digitsToNat fp
    let mz : Int := if sp.1 then -(m : Int) else (m : Int)
    match s3 with
    | [] => some (mkRat mz (10 ^ fp.length))
    | e :: r =>
      if e = 'e' || e = 'E' then
        let ep : Bool × List Char :=
          match r with
          | '+' :: r2 => (false, r2)
          | '-' :: r2 => (true, r2)
          | _ => (false, r)
        let eds := ep.2.takeWhile isPyDigit
        let rest := ep.2.dropWhile isPyDigit
        if eds.isEmpty || !rest.isEmpty then none
        else
          let ev : Int := if ep.1 then -(digitsToNat eds : Int) else (digitsToNat eds : Int)
          let net : Int := ev - (fp.length : Int)
          some (if 0 ≤ net then mkRat (mz * 10 ^ net.toNat) 1
                else mkRat mz (10 ^ (-net).toNat))
      else none

/-- The numeric parsing of one rate-constant value (lines 270-273): try
`float(value)`; on a `ValueError`, retry after rewriting the `*^` exponent
marker to `e`. -/
def parse_rateconst_value (s : List Char) : Option ℚ :=
  match parsePyFloat s with
  | some v => some v
  | none => parsePyFloat (replaceSub s (strL "*^") (strL "e"))

/-- The value installed for a rate constant (line 275): the parsed value
converted from per-second to per-hour. -/
def install_rateconst_value (s : List Char) : Option ℚ :=
  (parse_rateconst_value s).map (fun v => v * 3600)

/-- Python list indexing `l[i]` including negative indices, wrapped in the
`try`/`except IndexError` of `rateconsts_from_txt` (lines 246-251): an
out-of-range index raises an `IndexError` whose message names the range
`[1, N]` for `N` cluster lines. -/
def python_index (l : List (List Char)) (i : Int) : Option (List Char) :=
  let j : Int := if i < 0 then i + (l.length : Int) else i
  if 0 ≤ j ∧ j < (l.length : Int) then some (l.getD j.toNat []) else none

/-- Selection of the cluster line by the 1-based `kcluster` index
(lines 246-251). -/
def select_cluster_line (lines : List (List Char)) (kcluster : Int) :
    Except (List Char) (List Char) :=
  match python_index lines (kcluster - 1) with
  | some l => Except.ok l
  | none =>
    Except.error
      (strL "Invalid kcluster. Must be an int between [1, " ++
        strL (toString lines.length) ++ strL "], ")

/-- A reaction entering the symmetry-group unification loop: its identifier
and the string form of its (time-stripped, already unified) rate
expression. -/
structure RxnEntry where
  id : List Char
  rate : List Char
deriving DecidableEq

/-- Python string comparison (lexicographic by code point). -/
def strLe : List Char → List Char → Bool
  | [], _ => true
  | _ :: _, [] => false
  | c :: cs, d :: ds => if c = d then strLe cs ds else decide (c < d)

/-- Stable insertion keeping entries with smaller-or-equal identifiers in
front: one step of a stable ascending sort by reaction identifier. -/
def insertById (r : RxnEntry) : List RxnEntry → List RxnEntry
  | [] => [r]
  | x :: xs => if strLe x.id r.id then x :: insertById r xs else r :: x :: xs

/-- `sorted(rxn_list, key=attrgetter("id"))`: the stable ascending sort by
reaction identifier, as a stable insertion sort (stable sorts agree as
functions on lists). -/
def sortById (l : List RxnEntry) : List RxnEntry :=
  l.foldl (fun acc r => insertById r acc) []

/-- Python `enumerate`. -/
def enumIdx {α : Type} : Nat → List α → List (Nat × α)
  | _, [] => []
  | n, a :: as => (n, a) :: enumIdx (n + 1) as

/-- The symmetry-coefficient loop of `rateconsts_from_txt` (lines 282-292):
sort the family's reactions by identifier ascending, and for member `i` of
`n` install a custom rate law obtained from its rate string by rewriting
the family reverse constant `kr_<rid>` to `(i+1)*kr_<rid>` and the family
forward constant `kf_<rid>` to `(n-i)*kf_<rid>`, with the two family
constants registered as free custom parameters (value `None`).  Each
output entry is `(reaction id, custom rate string, custom parameters)`. -/
def unify_group_rates (rxn_list : List RxnEntry) (rid : List Char) :
    List (List Char × List Char × List (List Char × Option ℚ)) :=
  let kf_str := strL "kf_" ++ rid
  let kr_str := strL "kr_" ++ rid
  (enumIdx 0 (sortById rxn_list)).map fun p =>
    let i := p.1
    let rate1 := replaceSub p.2.rate kr_str (strL (toString (i + 1)) ++ '*' :: kr_str)
    let rate2 :=
      replaceSub rate1 kf_str (strL (toString (rxn_list.length - i)) ++ '*' :: kf_str)
    (p.2.id, rate2, [(kf_str, (none : Option ℚ)), (kr_str, none)])

/-- `fix_equation_variables` (lines 37-59): for each compartment, rewrite
the parenthesized compartment tag to bracket syntax, the volume parameter
to the literal 1, and the total-enzyme parameter to its canonical symbol;
then substitute every mapped raw species / forward-constant /
reverse-constant identifier by its normalized form with `re.sub` (species
identifiers get their brackets regex-escaped first, so every pattern is
matched literally). -/
def fix_equation_variables (compartments : List (List Char))
    (enzyme_id enzyme_total_symbol : List Char)
    (species_map kf_map kr_map : List (List Char × List Char))
    (equation_str : List Char) : List Char :=
  let eq1 := compartments.foldl
    (fun eq cid =>
      let eq := replaceSub eq ('(' :: cid ++ [')']) ('[' :: cid ++ [']'])
      let vol_str := strL "param_Volume_" ++ cid
      let eq := if containsSub eq vol_str then replaceSub eq vol_str ['1'] else eq
      let e_tot_str := strL "param_" ++ enzyme_id ++ strL "_total"
      if containsSub eq e_tot_str then replaceSub eq e_tot_str enzyme_total_symbol else eq)
    equation_str
  (species_map ++ kf_map ++ kr_map).foldl (fun eq p => replaceSub eq p.1 p.2) eq1

/-- The zero-clamping of `steady_state_concentrations_from_txt`
(lines 323-326): the evaluated per-form steady-state concentration is
stored as the form's initial concentration, clamped to exactly zero when
its magnitude is at most the caller-supplied tolerance. -/
def clamp_initial_concentration (evaluated zero_tol : ℚ) : ℚ :=
  if |evaluated| ≤ zero_tol then 0 else evaluated

end EnzymeConstruction

deriving instance DecidableEq for Except

namespace EnzymeConstruction

/-- Helper for C4: once some token of the remaining token list has no
Identifier Map entry, the substitution loop aborts with an error carrying
a missing token, whatever equation string has been accumulated. -/
theorem subst_tokens_error (species_map : List (List Char × List Char)) :
    ∀ (toks : List (List Char)) (eq : List Char),
      (∃ t ∈ toks, lookupAssoc species_map t = none) →
      ∃ e, e ∈ toks ∧ lookupAssoc species_map e = none ∧
        subst_tokens species_map eq toks = Except.error e := by
  intro toks
  induction toks with
  | nil => intro eq h; simp at h
  | cons t rest ih =>
    intro eq h
    by_cases hl : lookupAssoc species_map t = none
    · exact ⟨t, by simp, hl, by simp [subst_tokens, hl]⟩
    · obtain ⟨u, hu, hun⟩ := h
      rcases List.mem_cons.mp hu with rfl | hu2
      · exact absurd hun hl
      · obtain ⟨nid, hnid⟩ := Option.ne_none_iff_exists'.mp hl
        obtain ⟨e, he1, he2, he3⟩ := ih (replaceFirst eq t nid) ⟨u, hu2, hun⟩
        exact ⟨e, List.mem_cons_of_mem _ he1, he2, by simp [subst_tokens, hnid, he3]⟩

/-- C1: the Rate Law Loader's identifier rewriting is plain regex
substitution, not exact-token replacement.  With the species map entry
`atp -> atp_c`, the equation text `atp2` — a longer identifier of which
the mapped raw identifier is a proper prefix — is rewritten to `atp_c2`
instead of being left unchanged, contradicting the claim. -/
theorem c1_subst_rewrites_inside_longer_identifier :
    fix_equation_variables [] (strL "ENO") (strL "ENO_Total")
      [(strL "atp", strL "atp_c")] [] [] (strL "atp2") = strL "atp_c2" := by
  decide

/-- C2 counterexample: when the symbolic solve yields two real solutions,
the total-enzyme solve does not raise: `list(...).pop()` silently returns
the last materialized solution. -/
theorem c2_two_solutions_return_value :
    calculate_enzyme_total [(1 : ℚ), 2] = Except.ok 2 := by
  decide

/-- C2 (amended): the total-enzyme solve raises an `IndexError` exactly
when the solution list is empty; with one or more solutions it returns the
last element without any uniqueness check. -/
theorem c2_amended_pop_last_solution :
    (∃ e, calculate_enzyme_total [] = Except.error e) ∧
    ∀ (sols : List ℚ) (h : sols ≠ []),
      calculate_enzyme_total sols = Except.ok (sols.getLast h) := by
  constructor
  · exact ⟨_, rfl⟩
  · intro sols h
    simp [calculate_enzyme_total, List.getLast?_eq_getLast sols h]

/-- Witness for C2 (amended) at a concrete two-solution input. -/
theorem c2_amended_pop_last_solution_witness :
    calculate_enzyme_total [(3 : ℚ), 7] = Except.ok 7 := by
  have h := c2_amended_pop_last_solution.2 [(3 : ℚ), 7] (by decide)
  exact h.trans (by decide)

/-- C3: with a three-line cluster file, the out-of-range cluster index 0
does not raise: Python's negative indexing makes `lines[0 - 1]` silently
select the last line, contradicting the range check the error message
documents. -/
theorem c3_kcluster_zero_selects_last_line :
    select_cluster_line [strL "a", strL "b", strL "c"] 0 = Except.ok (strL "c") := by
  decide

/-- C4: whenever some species token of a reaction formula has no entry in
the Identifier Map, the Reaction Loader's rewriting raises a `KeyError`
carrying a missing token; the token is never silently skipped. -/
theorem c4_missing_species_token_raises
    (species_map : List (List Char × List Char)) (reaction_str : List Char)
    (toks : List (List Char)) (htoks : speciesTokens (stripL reaction_str) = some toks)
    (hmiss : ∃ t ∈ toks, lookupAssoc species_map t = none) :
    ∃ e, e ∈ toks ∧ lookupAssoc species_map e = none ∧
      rewrite_reaction_species species_map reaction_str = Except.error e := by
  obtain ⟨e, he1, he2, he3⟩ := subst_tokens_error species_map toks reaction_str hmiss
  refine ⟨e, he1, he2, ?_⟩
  unfold rewrite_reaction_species
  rw [htoks]
  exact he3

/-- C5 counterexample: on the fixed species file containing exactly
`atp_c` and `2pg_c` and the reaction line `R1: atp_c + 2pg_c <=> adp_c`,
the Reaction Loader does not produce a reaction at all: the participant
`adp_c` has no Identifier Map entry (it is absent from the species file),
so the rewriting raises a `KeyError` on `adp_c`. -/
theorem c5_fixed_round_trip_raises_on_adp_c :
    load_species_and_reaction (strL "ENO") [strL "atp_c", strL "2pg_c"]
      (strL "R1: atp_c + 2pg_c <=> adp_c") = Except.error (strL "adp_c") := by
  decide

/-- C5 (amended): with the species file extended to also list `adp_c`, the
round trip produces the reaction `R1` whose formula is rewritten to
`atp_c + _2pg_c <=> adp_c`, i.e. whose participants are exactly the
normalized identifiers `atp_c`, `_2pg_c` and `adp_c`. -/
theorem c5_amended_round_trip_with_adp_c :
    load_species_and_reaction (strL "ENO") [strL "atp_c", strL "2pg_c", strL "adp_c"]
        (strL "R1: atp_c + 2pg_c <=> adp_c") =
      Except.ok (strL "R1", strL "atp_c + _2pg_c <=> adp_c") ∧
    speciesTokens (strL "atp_c + _2pg_c <=> adp_c") =
      some [strL "atp_c", strL "_2pg_c", strL "adp_c"] := by
  constructor
  · decide
  · decide

/-- Witness for C4 at a concrete map and formula with a missing token. -/
theorem c4_missing_species_token_raises_witness :
    ∃ e, e ∈ [strL "a", strL "b"] ∧ lookupAssoc [(strL "a", strL "a")] e = none ∧
      rewrite_reaction_species [(strL "a", strL "a")] (strL "a <=> b") =
        Except.error e :=
  c4_missing_species_token_raises [(strL "a", strL "a")] (strL "a <=> b")
    [strL "a", strL "b"] (by decide) ⟨strL "b", by decide, by decide⟩

/-- C6: for every raw identifier whose bracketed letters include the
stereo-isomer letter D or L, the normalizer splices that letter (D
preferred over L) into the name with an underscore — every bracketed
occurrence of it is replaced by the underscore form — instead of treating
it as a compartment, and a remaining bracketed letter is treated as a true
compartment code exactly when one bracket letter remains after the pop. -/
theorem c6_isomer_preferred_over_compartment (orig : List Char)
    (hiso : ((findBrackets orig).contains 'D' || (findBrackets orig).contains 'L') = true) :
    ((remainingBrackets orig).length = 1 →
        normalize_species_id orig =
          (compartmentSub
              (replaceSub orig ['[', isomerLetter (findBrackets orig), ']']
                ['_', isomerLetter (findBrackets orig)])
              ['_', (remainingBrackets orig).headI],
           Sum.inr (remainingBrackets orig).headI)) ∧
    ((remainingBrackets orig).length ≠ 1 →
        normalize_species_id orig =
          (replaceSub orig ['[', isomerLetter (findBrackets orig), ']']
            ['_', isomerLetter (findBrackets orig)],
           Sum.inl (remainingBrackets orig))) := by
  have hrem : remainingBrackets orig =
      (findBrackets orig).erase (isomerLetter (findBrackets orig)) := by
    simp only [remainingBrackets]
    rw [if_pos hiso]
  constructor
  · intro hlen
    rw [hrem] at hlen ⊢
    simp only [normalize_species_id]
    rw [if_pos hiso]
    simp only [normalize_step2]
    rw [if_pos hlen]
  · intro hlen
    rw [hrem] at hlen ⊢
    simp only [normalize_species_id]
    rw [if_pos hiso]
    simp only [normalize_step2]
    rw [if_neg hlen]

/-- Witness for C6: in `2pg[D][c]` the isomer D is spliced to `_D` and the
remaining single bracket letter c becomes the compartment. -/
theorem c6_isomer_witness :
    normalize_species_id (strL "2pg[D][c]") = (strL "2pg_D_c", Sum.inr 'c') := by
  have h := (c6_isomer_preferred_over_compartment (strL "2pg[D][c]") (by decide)).1 (by decide)
  exact h.trans (by decide)

/-- Helper for C7: indexing Python `enumerate`. -/
theorem enumIdx_get? {α : Type} (l : List α) : ∀ (n i : Nat),
    (enumIdx n l).get? i = (l.get? i).map (fun a => (n + i, a)) := by
  induction l with
  | nil => intro n i; simp [enumIdx]
  | cons a as ih =>
    intro n i
    cases i with
    | zero => simp [enumIdx]
    | succ j =>
      simp only [enumIdx, List.get?_cons_succ, ih (n + 1) j]
      have h : n + 1 + j = n + (j + 1) := by omega
      rw [h]

/-- C7: when the family's reactions are listed in ascending identifier
order (so that the stable sort leaves them in place), member i of n has
its reverse constant `kr_<rid>` rewritten with the integer coefficient
i+1 and its forward constant `kf_<rid>` with the coefficient n-i in the
installed custom rate string, and the family's two constants are
installed as free custom parameters. -/
theorem c7_symmetry_coefficients (rxn_list : List RxnEntry) (rid : List Char)
    (i : Nat) (rxn : RxnEntry)
    (hsorted : sortById rxn_list = rxn_list)
    (hget : rxn_list.get? i = some rxn) :
    (unify_group_rates rxn_list rid).get? i =
      some (rxn.id,
        replaceSub
          (replaceSub rxn.rate (strL "kr_" ++ rid)
            (strL (toString (i + 1)) ++ '*' :: (strL "kr_" ++ rid)))
          (strL "kf_" ++ rid)
          (strL (toString (rxn_list.length - i)) ++ '*' :: (strL "kf_" ++ rid)),
        [(strL "kf_" ++ rid, none), (strL "kr_" ++ rid, none)]) := by
  unfold unify_group_rates
  rw [hsorted, List.get?_map, enumIdx_get? rxn_list 0 i, hget]
  simp

/-- Witness for C7 on the spec's three-member family: member 1 (0-based)
gets reverse coefficient 2 and forward coefficient 2. -/
theorem c7_symmetry_witness :
    (unify_group_rates
        [⟨strL "X1", strL "kf_X*a - kr_X*b"⟩, ⟨strL "X2", strL "kf_X*c - kr_X*d"⟩,
         ⟨strL "X3", strL "kf_X*e - kr_X*f"⟩] (strL "X")).get? 1 =
      some (strL "X2", strL "2*kf_X*c - 2*kr_X*d",
        [(strL "kf_X", (none : Option ℚ)), (strL "kr_X", none)]) := by
  have h := c7_symmetry_coefficients
    [⟨strL "X1", strL "kf_X*a - kr_X*b"⟩, ⟨strL "X2", strL "kf_X*c - kr_X*d"⟩,
     ⟨strL "X3", strL "kf_X*e - kr_X*f"⟩] (strL "X") 1
    ⟨strL "X2", strL "kf_X*c - kr_X*d"⟩ (by decide) (by decide)
  exact h.trans (by decide)

/-- C8: the installed rate-constant value is the parsed numeric value
multiplied by 3600 (a raw `2.5` installs as 9000); a `*^` exponent marker
is parsed as `e` (raw `1.2*^-3` parses to `mkRat 12 (10 ^ 4)`, the exact
rational 0.0012). -/
theorem c8_unit_conversion_and_caret_marker :
    install_rateconst_value (strL "2.5") = some 9000 ∧
    parse_rateconst_value (strL "1.2*^-3") = some (mkRat 12 (10 ^ 4)) ∧
    ∀ (s : List Char) (v : ℚ), parse_rateconst_value s = some v →
      install_rateconst_value s = some (v * 3600) := by
  refine ⟨?_, by decide, ?_⟩
  · have hp : parse_rateconst_value (strL "2.5") = some (mkRat 25 10) := by decide
    simp only [install_rateconst_value, hp, Option.map_some']
    congr 1
    rw [Rat.mkRat_eq_divInt, Rat.divInt_eq_div]
    norm_num
  · intro s v h
    simp [install_rateconst_value, h]

/-- Witness for C8 at a concrete value carrying the marker. -/
theorem c8_unit_conversion_witness :
    install_rateconst_value (strL "3*^2") = some (300 * 3600) :=
  c8_unit_conversion_and_caret_marker.2.2 (strL "3*^2") 300 (by decide)

/-- C9: an evaluated per-form concentration with magnitude below the
caller-supplied tolerance is stored as exactly 0; one with magnitude above
the tolerance is stored unchanged. -/
theorem c9_zero_clamp (evaluated zero_tol : ℚ) :
    (|evaluated| < zero_tol → clamp_initial_concentration evaluated zero_tol = 0) ∧
    (zero_tol < |evaluated| → clamp_initial_concentration evaluated zero_tol = evaluated) := by
  constructor
  · intro h
    simp [clamp_initial_concentration, le_of_lt h]
  · intro h
    simp [clamp_initial_concentration, not_le.mpr h]

/-- Witness for C9 on the spec's example: 3e-16 against tolerance 1e-15
stores 0, and a value above the tolerance is stored unchanged. -/
theorem c9_zero_clamp_witness :
    clamp_initial_concentration (mkRat 3 (10 ^ 16)) (mkRat 1 (10 ^ 15)) = 0 ∧
    clamp_initial_concentration 2 (mkRat 1 (10 ^ 15)) = 2 := by
  constructor
  · exact (c9_zero_clamp (mkRat 3 (10 ^ 16)) (mkRat 1 (10 ^ 15))).1 (by decide)
  · exact (c9_zero_clamp 2 (mkRat 1 (10 ^ 15))).2 (by decide)

/-- C10: for a species line whose corrected identifier starts with the
enzyme-bound-form marker `E_<enzyme id>` and contains a bound-ligand
delimiter, the Species Loader raises the string-plus-list `TypeError`
exactly when the number of bracket letters remaining after the
stereo-isomer pop differs from one; it completes on the line exactly when
one compartment bracket is present. -/
theorem c10_bound_form_type_error (enzyme_id orig : List Char)
    (hpre : (strL "E_" ++ enzyme_id).isPrefixOf
        (prefix_number_id (normalize_species_id orig).1) = true)
    (hdelim : (prefix_number_id (normalize_species_id orig).1).any isBoundDelim = true) :
    (∃ e, process_species_line enzyme_id orig = Except.error e) ↔
      (remainingBrackets orig).length ≠ 1 := by
  have hsnd := normalize_species_id_snd orig
  by_cases hlen : (remainingBrackets orig).length = 1
  · rw [if_pos hlen] at hsnd
    simp only [process_species_line, hpre, hdelim, if_true, hsnd]
    constructor
    · rintro ⟨e, he⟩
      exact absurd he (by simp)
    · intro h
      exact absurd hlen h
  · rw [if_neg hlen] at hsnd
    simp only [process_species_line, hpre, hdelim, if_true, hsnd]
    exact ⟨fun _ => hlen, fun _ => ⟨_, rfl⟩⟩

/-- Witness for C10: a bound-form identifier with two compartment brackets
left after normalization raises the `TypeError`. -/
theorem c10_bound_form_witness :
    ∃ e, process_species_line (strL "ENO") (strL "E_ENO&2pg[c][m]") = Except.error e :=
  (c10_bound_form_type_error (strL "ENO") (strL "E_ENO&2pg[c][m]")
    (by decide) (by decide)).mpr (by decide)

end EnzymeConstruction
